import Mathlib

/-!
Verification of the two pipelines of `azure-ai-search-index-export`:
`export.py` (`export_search_index_to_json`) and `import.py`
(`import_json_to_search_index`).

The remote transport (`SearchClient.search` / `SearchClient.upload_documents`)
is modelled as an opaque function supplied by the environment: a page server
mapping a `skip` offset to either a raised transport error or a page of
records, and an upload function mapping a batch to either a raised transport
error or the per-record `succeeded` flags of its response.  Records are an
opaque type `α`.  File I/O is modelled by the `written` field of the export
result (the contents `json.dump` would receive), and the `tqdm` progress bar
by a ghost natural-number counter mirroring the `pbar.update` calls.
-/

namespace AzSearch

/-- Normalise one endpoint of a Python slice over a list of length `len`:
negative indices count from the end, and both ends are clamped to `[0, len]`. -/
def sliceIdx (len : Nat) (i : Int) : Nat :=
  if i < 0 then min (i + len).toNat len else min i.toNat len

/-- Python list slice `l[i:j]` (default step 1). -/
def pySlice {α : Type} (l : List α) (i j : Int) : List α :=
  (l.take (sliceIdx l.length j)).drop (sliceIdx l.length i)

/-- Number of elements of Python `range(start, stop, step)`.  The `step = 0`
case (a `ValueError` in Python) is handled by the caller before reaching
this function. -/
def rangeLen (start stop step : Int) : Nat :=
  if 0 < step then ((stop - start).toNat + step.toNat - 1) / step.toNat
  else if step < 0 then ((start - stop).toNat + (-step).toNat - 1) / (-step).toNat
  else 0

/-- Python `range(start, stop, step)` as a list of integers. -/
def pyRange (start stop step : Int) : List Int :=
  (List.range (rangeLen start stop step)).map (fun (k : Nat) => start + step * (k : Int))

/-! ## Import pipeline (`import.py`, `import_json_to_search_index`) -/

/-- Result of one `client.upload_documents` transport call: either a raised
transport error, or the list of per-record `succeeded` flags of the response. -/
inductive UploadResp : Type where
  | err : UploadResp
  | ok : List Bool → UploadResp
deriving DecidableEq

/-- Python `success_count = sum(1 for r in results if r.succeeded)`. -/
def countSucceeded (results : List Bool) : Nat :=
  (results.filter (fun r => r)).length

/-- Whether an upload transport call returned normally. -/
def uploadOk : UploadResp → Bool
  | .err => false
  | .ok _ => true

/-- Accumulated state of the batching loop of `import.py` (lines 72-98):
the two running counters, the ghost progress-bar counter (`pbar.update`
calls), and the ghost trace of batches submitted to the transport. -/
structure ImportState (α : Type) where
  uploaded_count : Nat
  failed_count : Nat
  progress : Nat
  uploads : List (List α)
deriving DecidableEq

/-- One iteration of the batch loop body (`import.py` lines 79-98): submit
`batch` to the transport; on a normal response count per-record successes and
failures and advance the progress bar by the batch size; on a raised
transport error count the entire batch as failed (lines 96-98) and leave the
progress bar untouched (the `pbar.update` on line 92 is inside the `try`). -/
def processBatch {α : Type} (upload : List α → UploadResp)
    (st : ImportState α) (batch : List α) : ImportState α :=
  match upload batch with
  | .ok results =>
    let success_count := countSucceeded results
    let fail_count := results.length - success_count
    { uploaded_count := st.uploaded_count + success_count
      failed_count := st.failed_count + fail_count
      progress := st.progress + batch.length
      uploads := st.uploads ++ [batch] }
  | .err =>
    { st with
      failed_count := st.failed_count + batch.length
      uploads := st.uploads ++ [batch] }

/-- The batches of `import.py` line 76-77:
`for i in range(0, total_docs, batch_size): batch = documents[i:i + batch_size]`.
Since neither `documents` nor `batch_size` changes inside the loop, the
batches are computed up front. -/
def importBatches {α : Type} (documents : List α) (batch_size : Int) : List (List α) :=
  (pyRange 0 documents.length batch_size).map
    (fun i => pySlice documents i (i + batch_size))

/-- Observable outcome of one run of `import_json_to_search_index`:
the function's return value, the final counters, the ghost progress-bar
counter, and the ghost trace of transport calls made. -/
structure ImportOut (α : Type) where
  ret : Nat
  uploaded_count : Nat
  failed_count : Nat
  progress : Nat
  uploads : List (List α)
deriving DecidableEq

/-- The function `import_json_to_search_index` (`import.py` lines 45-113), after the input
file has been parsed into `documents`.  An empty input returns 0 before the
loop (lines 56-58).  A zero `batch_size` makes `range(0, total_docs, 0)`
raise `ValueError`, which the outermost handler (lines 111-113) converts to
a returned 0; no transport call is made.  Otherwise the batch loop runs and
the final `uploaded_count` is returned (line 109). -/
def import_json_to_search_index {α : Type} (documents : List α) (batch_size : Int)
    (upload : List α → UploadResp) : ImportOut α :=
  if documents.isEmpty then
    { ret := 0, uploaded_count := 0, failed_count := 0, progress := 0, uploads := [] }
  else if batch_size = 0 then
    { ret := 0, uploaded_count := 0, failed_count := 0, progress := 0, uploads := [] }
  else
    let st := (importBatches documents batch_size).foldl (processBatch upload)
      { uploaded_count := 0, failed_count := 0, progress := 0, uploads := [] }
    { ret := st.uploaded_count, uploaded_count := st.uploaded_count,
      failed_count := st.failed_count, progress := st.progress, uploads := st.uploads }

/-! ## Export pipeline (`export.py`, `export_search_index_to_json`) -/

/-- Constant `page_size = 1000  # Max page size` (`export.py` line 79). -/
def page_size : Nat := 1000

/-- Python truthiness of the optional integer `top` argument: `if top:` is
taken exactly when `top` is not `None` and not `0`. -/
def topTruthy : Option Int → Bool
  | none => false
  | some v => v != 0

/-- Result of one `client.search` page request: either a raised transport
error or the decoded page of records. -/
inductive PageResp (α : Type) : Type where
  | err : PageResp α
  | ok : List α → PageResp α
deriving DecidableEq

/-- Accumulated state of the pagination loop of `export.py` (lines 83-115):
the accumulator `all_docs`, the cursor `skip`, the ghost progress-bar counter
(`pbar.update` calls), the ghost trace of pages received, and the ghost trace
of `(skip, top)` request parameters issued. -/
structure ExportLoopState (α : Type) where
  all_docs : List α
  skip : Nat
  progress : Nat
  pages : List (List α)
  requests : List (Nat × Nat)
deriving DecidableEq

/-- How the pagination loop ends: a raised transport error (caught by the
outermost handler), a normal `break`, or exhaustion of the step budget
(a modelling artifact: the Python loop has no such budget). -/
inductive ExportLoopResult (α : Type) : Type where
  | exc : ExportLoopState α → ExportLoopResult α
  | done : ExportLoopState α → ExportLoopResult α
  | fuelOut : ExportLoopResult α
deriving DecidableEq

/-- The `while True` pagination loop of `export.py` lines 86-115, stepped at
most `fuel` times.  Each iteration: record the request, call the server at
the current cursor; a raised error aborts the loop (propagating to the
outermost handler); an empty page breaks (line 96-97); otherwise extend
`all_docs`, advance the cursor by the number of records actually returned
(line 100), update the progress bar (lines 102-104), then check the `top`
bound (lines 109-111, truncating via `all_docs[:top]`) and the short-page
end-of-data condition (lines 114-115). -/
def exportLoop {α : Type} (srv : Nat → PageResp α) (top : Option Int) :
    Nat → ExportLoopState α → ExportLoopResult α
  | 0, _ => .fuelOut
  | fuel + 1, st =>
    let st0 : ExportLoopState α :=
      { st with requests := st.requests ++ [(st.skip, page_size)] }
    match srv st.skip with
    | .err => .exc st0
    | .ok page =>
      let st1 : ExportLoopState α := { st0 with pages := st0.pages ++ [page] }
      if page.isEmpty then .done st1
      else
        let st2 : ExportLoopState α :=
          { st1 with
            all_docs := st1.all_docs ++ page
            skip := st1.skip + page.length
            progress := st1.progress + page.length }
        if topTruthy top ∧ (top.getD 0 ≤ (st2.all_docs.length : Int)) then
          .done { st2 with all_docs := pySlice st2.all_docs 0 (top.getD 0) }
        else if page.length < page_size then .done st2
        else exportLoop srv top fuel st2

/-- Loop state at entry: empty accumulator, cursor 0 (`export.py` lines 83-84). -/
def startState {α : Type} : ExportLoopState α :=
  { all_docs := [], skip := 0, progress := 0, pages := [], requests := [] }

/-- Observable outcome of one run of `export_search_index_to_json`: the
function's return value, the contents handed to `json.dump` (or `none` when
the write step was never reached), the ghost request and page traces, the
ghost progress-bar counter, and the progress-bar ceiling `total_docs`. -/
structure ExportOut (α : Type) where
  ret : Nat
  written : Option (List α)
  requests : List (Nat × Nat)
  pages : List (List α)
  progress : Nat
  ceiling : Int
deriving DecidableEq

/-- The function `export_search_index_to_json` (`export.py` lines 46-131).  `probe` is the
count-only search of lines 53-54 (`none` models a raised transport error
there); the ceiling is `min(total_docs, top)` when `top` is truthy (lines
56-57).  A transport error anywhere inside the `try` is caught by the
outermost handler (lines 129-131), which returns 0 without reaching the file
write.  On normal loop exit the accumulator is written and its length
returned (lines 122-127).  `none` as overall result marks fuel exhaustion,
a modelling artifact only. -/
def export_search_index_to_json {α : Type} (probe : Option Int)
    (srv : Nat → PageResp α) (top : Option Int) (fuel : Nat) :
    Option (ExportOut α) :=
  match probe with
  | none =>
    some { ret := 0, written := none, requests := [], pages := [],
           progress := 0, ceiling := 0 }
  | some total =>
    let total_docs : Int := if topTruthy top then min total (top.getD 0) else total
    match exportLoop srv top fuel startState with
    | .fuelOut => none
    | .exc st =>
      some { ret := 0, written := none, requests := st.requests,
             pages := st.pages, progress := st.progress, ceiling := total_docs }
    | .done st =>
      some { ret := st.all_docs.length, written := some st.all_docs,
             requests := st.requests, pages := st.pages,
             progress := st.progress, ceiling := total_docs }

/-- An honest paginated server over a fixed store: at offset `skip` it returns
the next `n skip` records of the store (the server, not the client, chooses
how many records each page carries). -/
def pagedSrv {α : Type} (store : List α) (n : Nat → Nat) : Nat → PageResp α :=
  fun skip => .ok ((store.drop skip).take (n skip))

/-- The canonical server: honours the requested page size in full. -/
def fullSrv {α : Type} (store : List α) : Nat → PageResp α :=
  pagedSrv store (fun _ => page_size)

/-- Final loop state of the import batching loop on a non-degenerate run. -/
def importFinal {α : Type} (documents : List α) (batch_size : Int)
    (upload : List α → UploadResp) : ImportState α :=
  (importBatches documents batch_size).foldl (processBatch upload)
    { uploaded_count := 0, failed_count := 0, progress := 0, uploads := [] }

/-- The contiguous positional chunks `l[b*k : b*k + b]` for `k < n`. -/
def chunkList {α : Type} (l : List α) (b n : Nat) : List (List α) :=
  (List.range n).map (fun k => (l.drop (b * k)).take b)

/-! ## Helper lemmas: Python slices and ranges -/

lemma take_min_length {α : Type} (l : List α) (n : Nat) :
    l.take (min n l.length) = l.take n := by
  rcases Nat.le_total n l.length with h | h
  · rw [Nat.min_eq_left h]
  · rw [Nat.min_eq_right h, List.take_length, List.take_of_length_le h]

lemma drop_min_length {α : Type} (l l' : List α) (a : Nat) (h : l'.length ≤ l.length) :
    l'.drop (min a l.length) = l'.drop a := by
  rcases Nat.le_total a l.length with h' | h'
  · rw [Nat.min_eq_left h']
  · rw [Nat.min_eq_right h', List.drop_eq_nil_of_le h,
      List.drop_eq_nil_of_le (le_trans h h')]

lemma pySlice_natCast {α : Type} (l : List α) (a b : Nat) :
    pySlice l (a : Int) (b : Int) = (l.drop a).take (b - a) := by
  unfold pySlice sliceIdx
  rw [if_neg (by omega), if_neg (by omega), Int.toNat_natCast, Int.toNat_natCast,
    take_min_length,
    drop_min_length l (l.take b) a (by rw [List.length_take]; exact Nat.min_le_right _ _),
    List.drop_take]

lemma pyRange_neg (len : Nat) (B : Int) (hB : B < 0) :
    pyRange 0 (len : Int) B = [] := by
  unfold pyRange rangeLen
  rw [if_neg (by omega), if_pos hB]
  have h0 : ((0 : Int) - (len : Int)).toNat = 0 := by omega
  rw [h0, Nat.div_eq_of_lt (by omega), List.range_zero, List.map_nil]

lemma importBatches_neg {α : Type} (documents : List α) (B : Int) (hB : B < 0) :
    importBatches documents B = [] := by
  unfold importBatches
  rw [pyRange_neg documents.length B hB, List.map_nil]

/-- With a positive batch size, the Python batches are exactly the positional
chunks of size `B.toNat`, and there are `⌈S / B⌉` of them. -/
lemma importBatches_eq {α : Type} (documents : List α) (B : Int) (hB : 0 < B) :
    importBatches documents B
      = chunkList documents B.toNat
          ((documents.length + B.toNat - 1) / B.toNat) := by
  have hBc : ((B.toNat : Nat) : Int) = B := Int.toNat_of_nonneg (le_of_lt hB)
  unfold importBatches pyRange rangeLen chunkList
  rw [if_pos hB]
  have h1 : ((documents.length : Int) - 0).toNat = documents.length := by omega
  rw [h1, List.map_map]
  refine List.map_congr_left ?_
  intro k _
  show pySlice documents (0 + B * (k : Int)) (0 + B * (k : Int) + B)
      = (documents.drop (B.toNat * k)).take B.toNat
  have h2 : 0 + B * (k : Int) = ((B.toNat * k : Nat) : Int) := by
    push_cast [hBc]; ring
  have h3 : 0 + B * (k : Int) + B = ((B.toNat * k + B.toNat : Nat) : Int) := by
    push_cast [hBc]; ring
  rw [h3, h2, pySlice_natCast]
  congr 1
  omega

/-! ## Helper lemmas: chunk partitioning -/

lemma chunkList_succ {α : Type} (l : List α) (b n : Nat) :
    chunkList l b (n + 1) = l.take b :: chunkList (l.drop b) b n := by
  unfold chunkList
  rw [List.range_succ_eq_map, List.map_cons, List.map_map]
  simp only [Nat.mul_zero, List.drop_zero]
  congr 1
  refine List.map_congr_left ?_
  intro k _
  show (l.drop (b * (k + 1))).take b = ((l.drop b).drop (b * k)).take b
  rw [List.drop_drop]
  congr 2
  ring

lemma chunkList_flatten {α : Type} (b : Nat) (hb : 0 < b) :
    ∀ (n : Nat) (l : List α), n = (l.length + b - 1) / b →
      (chunkList l b n).flatten = l := by
  intro n
  induction n with
  | zero =>
    intro l h
    have hlt : l.length + b - 1 < b := (Nat.div_eq_zero_iff hb).mp h.symm
    have : l.length = 0 := by omega
    rw [List.length_eq_zero.mp this]
    rfl
  | succ n ih =>
    intro l h
    have hlen : 1 ≤ l.length := by
      by_contra hc
      have h0 : l.length = 0 := by omega
      rw [h0, Nat.div_eq_of_lt (by omega)] at h
      omega
    have harg : l.length + b - 1 = (l.length - 1) + b := by omega
    rw [harg, Nat.add_div_right _ hb] at h
    have hn : n = (l.length - 1) / b := by omega
    rw [chunkList_succ, List.flatten_cons, ih (l.drop b) ?side, List.take_append_drop]
    case side =>
      rw [List.length_drop]
      rcases Nat.le_total b l.length with hbl | hbl
      · have he : l.length - b + b - 1 = l.length - 1 := by omega
        rw [he, hn]
      · have he : l.length - b = 0 := by omega
        rw [he, Nat.div_eq_of_lt (by omega), hn, Nat.div_eq_of_lt (by omega)]

lemma chunkList_length {α : Type} (l : List α) (b n : Nat) :
    (chunkList l b n).length = n := by
  unfold chunkList
  rw [List.length_map, List.length_range]

lemma chunkList_get_length {α : Type} (l : List α) (b n k : Nat) (hb : 0 < b)
    (hn : n = (l.length + b - 1) / b) (hk : k + 1 < n)
    (hget : k < (chunkList l b n).length) :
    ((chunkList l b n).get ⟨k, hget⟩).length = b := by
  have hlen : 1 ≤ l.length := by
    by_contra hc
    have h0 : l.length = 0 := by omega
    rw [h0, Nat.div_eq_of_lt (by omega)] at hn
    omega
  have harg : l.length + b - 1 = (l.length - 1) + b := by omega
  rw [harg, Nat.add_div_right _ hb] at hn
  have hmul : (n - 1) * b ≤ l.length - 1 := by
    have := Nat.div_mul_le_self (l.length - 1) b
    calc (n - 1) * b = (l.length - 1) / b * b := by rw [show n - 1 = (l.length - 1) / b by omega]
    _ ≤ l.length - 1 := this
  have hkb : b * k + b ≤ l.length := by
    have h1 : b * (k + 1) ≤ b * (n - 1) := Nat.mul_le_mul_left b (by omega)
    have h2 : b * (n - 1) = (n - 1) * b := Nat.mul_comm _ _
    have h3 : b * (k + 1) = b * k + b := by ring
    omega
  have hget' : (chunkList l b n).get ⟨k, hget⟩ = (l.drop (b * k)).take b := by
    unfold chunkList
    rw [List.get_eq_getElem]
    simp only [List.getElem_map, List.getElem_range]
  rw [hget', List.length_take, List.length_drop]
  omega

/-! ## Helper lemmas: the import batching fold -/

lemma processBatch_uploads {α : Type} (upload : List α → UploadResp)
    (st : ImportState α) (b : List α) :
    (processBatch upload st b).uploads = st.uploads ++ [b] := by
  cases h : upload b <;> simp [processBatch, h]

lemma foldl_uploads {α : Type} (upload : List α → UploadResp) :
    ∀ (bs : List (List α)) (st : ImportState α),
      (bs.foldl (processBatch upload) st).uploads = st.uploads ++ bs := by
  intro bs
  induction bs with
  | nil => intro st; simp
  | cons b rest ih =>
    intro st
    rw [List.foldl_cons, ih, processBatch_uploads]
    simp

lemma processBatch_counts {α : Type} (upload : List α → UploadResp)
    (st : ImportState α) (b : List α)
    (align : ∀ r, upload b = UploadResp.ok r → r.length = b.length) :
    (processBatch upload st b).uploaded_count + (processBatch upload st b).failed_count
      = st.uploaded_count + st.failed_count + b.length := by
  cases h : upload b with
  | err => simp [processBatch, h]; omega
  | ok r =>
    have hr := align r h
    have hcs : countSucceeded r ≤ r.length := List.length_filter_le _ _
    simp [processBatch, h, countSucceeded] at hcs ⊢
    omega

lemma foldl_counts {α : Type} (upload : List α → UploadResp)
    (align : ∀ b r, upload b = UploadResp.ok r → r.length = b.length) :
    ∀ (bs : List (List α)) (st : ImportState α),
      (bs.foldl (processBatch upload) st).uploaded_count
        + (bs.foldl (processBatch upload) st).failed_count
        = st.uploaded_count + st.failed_count + (bs.map List.length).sum := by
  intro bs
  induction bs with
  | nil => intro st; simp
  | cons b rest ih =>
    intro st
    rw [List.foldl_cons, ih, processBatch_counts upload st b (fun r h => align b r h)]
    simp
    omega

lemma processBatch_progress {α : Type} (upload : List α → UploadResp)
    (st : ImportState α) (b : List α) :
    (processBatch upload st b).progress
      = st.progress + (if uploadOk (upload b) then b.length else 0) := by
  cases h : upload b <;> simp [processBatch, h, uploadOk]

lemma foldl_progress {α : Type} (upload : List α → UploadResp) :
    ∀ (bs : List (List α)) (st : ImportState α),
      (bs.foldl (processBatch upload) st).progress
        = st.progress
          + ((bs.filter (fun b => uploadOk (upload b))).map List.length).sum := by
  intro bs
  induction bs with
  | nil => intro st; simp
  | cons b rest ih =>
    intro st
    rw [List.foldl_cons, ih, processBatch_progress]
    by_cases h : uploadOk (upload b)
    · simp [List.filter_cons, h]; omega
    · simp [List.filter_cons, h]

lemma filter_map_length_sum_le {α : Type} (p : List α → Bool) :
    ∀ (bs : List (List α)),
      (((bs.filter p).map List.length).sum : Nat) ≤ (bs.map List.length).sum := by
  intro bs
  induction bs with
  | nil => simp
  | cons b rest ih =>
    by_cases h : p b
    · simp [List.filter_cons, h]; omega
    · simp [List.filter_cons, h]; omega

/-! ## Helper lemmas: unfolding a non-degenerate import run -/

lemma import_run {α : Type} (documents : List α) (batch_size : Int)
    (upload : List α → UploadResp) (hne : documents ≠ []) (hB : batch_size ≠ 0) :
    import_json_to_search_index documents batch_size upload
      = { ret := (importFinal documents batch_size upload).uploaded_count,
          uploaded_count := (importFinal documents batch_size upload).uploaded_count,
          failed_count := (importFinal documents batch_size upload).failed_count,
          progress := (importFinal documents batch_size upload).progress,
          uploads := (importFinal documents batch_size upload).uploads } := by
  unfold import_json_to_search_index
  rw [if_neg (by simp [List.isEmpty_iff, hne]), if_neg hB]
  rfl

lemma importBatches_length_sum {α : Type} (documents : List α) (batch_size : Int)
    (hpos : 0 < batch_size) :
    ((importBatches documents batch_size).map List.length).sum = documents.length := by
  rw [importBatches_eq documents batch_size hpos, ← List.length_flatten,
    chunkList_flatten batch_size.toNat (by omega) _ documents rfl]

/-! ## Helper lemmas: the export pagination loop -/

lemma exportLoop_succ {α : Type} (srv : Nat → PageResp α) (top : Option Int)
    (fuel : Nat) (st : ExportLoopState α) :
    exportLoop srv top (fuel + 1) st
      = match srv st.skip with
        | .err => .exc { st with requests := st.requests ++ [(st.skip, page_size)] }
        | .ok page =>
          if page.isEmpty then
            .done { st with requests := st.requests ++ [(st.skip, page_size)],
                            pages := st.pages ++ [page] }
          else
            if topTruthy top ∧ (top.getD 0 ≤ ((st.all_docs ++ page).length : Int)) then
              .done { all_docs := pySlice (st.all_docs ++ page) 0 (top.getD 0),
                      skip := st.skip + page.length,
                      progress := st.progress + page.length,
                      pages := st.pages ++ [page],
                      requests := st.requests ++ [(st.skip, page_size)] }
            else if page.length < page_size then
              .done { all_docs := st.all_docs ++ page,
                      skip := st.skip + page.length,
                      progress := st.progress + page.length,
                      pages := st.pages ++ [page],
                      requests := st.requests ++ [(st.skip, page_size)] }
            else
              exportLoop srv top fuel
                { all_docs := st.all_docs ++ page,
                  skip := st.skip + page.length,
                  progress := st.progress + page.length,
                  pages := st.pages ++ [page],
                  requests := st.requests ++ [(st.skip, page_size)] } := rfl

/-- Run-long invariant of the pagination loop: every request it has issued
asked for the constant page size, and the progress counter equals the sum of
the sizes of the pages received so far. -/
def loopInvar {α : Type} (st : ExportLoopState α) : Prop :=
  (∀ q ∈ st.requests, q.2 = page_size)
  ∧ st.progress = (st.pages.map List.length).sum

lemma exportLoop_invar {α : Type} (srv : Nat → PageResp α) (top : Option Int) :
    ∀ (fuel : Nat) (st r : ExportLoopState α),
      (exportLoop srv top fuel st = ExportLoopResult.done r
        ∨ exportLoop srv top fuel st = ExportLoopResult.exc r) →
      loopInvar st → loopInvar r := by
  intro fuel
  induction fuel with
  | zero =>
    intro st r h _
    rcases h with h | h <;> exact absurd h (by simp [exportLoop])
  | succ fuel ih =>
    intro st r h hinv
    rw [exportLoop_succ] at h
    cases hsrv : srv st.skip with
    | err =>
      simp only [hsrv] at h
      rcases h with h | h
      · simp at h
      · injection h with h'
        subst h'
        refine ⟨?_, hinv.2⟩
        intro q hq
        rcases List.mem_append.mp hq with hq | hq
        · exact hinv.1 q hq
        · rw [List.mem_singleton.mp hq]
    | ok page =>
      simp only [hsrv] at h
      have hreq2 : ∀ q ∈ st.requests ++ [(st.skip, page_size)], q.2 = page_size := by
        intro q hq
        rcases List.mem_append.mp hq with hq | hq
        · exact hinv.1 q hq
        · rw [List.mem_singleton.mp hq]
      have hprog2 : st.progress + page.length
          = ((st.pages ++ [page]).map List.length).sum := by
        rw [List.map_append, List.sum_append, ← hinv.2]
        simp
      by_cases hemp : page.isEmpty
      · rw [if_pos hemp] at h
        rcases h with h | h
        · injection h with h'
          subst h'
          refine ⟨hreq2, ?_⟩
          have hp : page = [] := List.isEmpty_iff.mp hemp
          rw [List.map_append, List.sum_append, ← hinv.2, hp]
          simp
        · simp at h
      · rw [if_neg hemp] at h
        by_cases htop : topTruthy top ∧ (top.getD 0 ≤ ((st.all_docs ++ page).length : Int))
        · rw [if_pos htop] at h
          rcases h with h | h
          · injection h with h'
            subst h'
            exact ⟨hreq2, hprog2⟩
          · simp at h
        · rw [if_neg htop] at h
          by_cases hshort : page.length < page_size
          · rw [if_pos hshort] at h
            rcases h with h | h
            · injection h with h'
              subst h'
              exact ⟨hreq2, hprog2⟩
            · simp at h
          · rw [if_neg hshort] at h
            exact ih _ r h ⟨hreq2, hprog2⟩

/-- With no `top` bound the loop's accumulator is always the concatenation of
the received pages, and every page before the final one was a full page
(otherwise the loop would have stopped there): on a normal exit the page
trace is some full pages followed by one short (possibly empty) final page. -/
lemma exportLoop_none_pages {α : Type} (srv : Nat → PageResp α) :
    ∀ (fuel : Nat) (st r : ExportLoopState α),
      exportLoop srv none fuel st = ExportLoopResult.done r →
      st.all_docs = st.pages.flatten →
      (∀ q ∈ st.pages, page_size ≤ q.length) →
      r.all_docs = r.pages.flatten
      ∧ ∃ ps p, r.pages = ps ++ [p] ∧ p.length < page_size
          ∧ ∀ q ∈ ps, page_size ≤ q.length := by
  intro fuel
  induction fuel with
  | zero =>
    intro st r h _ _
    exact absurd h (by simp [exportLoop])
  | succ fuel ih =>
    intro st r h hacc hfull
    rw [exportLoop_succ] at h
    cases hsrv : srv st.skip with
    | err => simp only [hsrv] at h; simp at h
    | ok page =>
      simp only [hsrv] at h
      by_cases hemp : page.isEmpty
      · rw [if_pos hemp] at h
        injection h with h'
        subst h'
        have hp : page = [] := List.isEmpty_iff.mp hemp
        refine ⟨?_, st.pages, page, rfl, ?_, hfull⟩
        · rw [List.flatten_append, ← hacc, hp]
          simp
        · rw [hp]
          simp [page_size]
      · rw [if_neg hemp] at h
        rw [if_neg (by simp [topTruthy])] at h
        by_cases hshort : page.length < page_size
        · rw [if_pos hshort] at h
          injection h with h'
          subst h'
          refine ⟨?_, st.pages, page, rfl, hshort, hfull⟩
          rw [List.flatten_append, ← hacc]
          simp
        · rw [if_neg hshort] at h
          refine ih _ r h ?_ ?_
          · rw [List.flatten_append, ← hacc]
            simp
          · intro q hq
            rcases List.mem_append.mp hq with hq | hq
            · exact hfull q hq
            · rw [List.mem_singleton.mp hq]
              omega

lemma take_extend {α : Type} (store : List α) (s m : Nat) :
    store.take s ++ (store.drop s).take m
      = store.take (s + ((store.drop s).take m).length) := by
  have h1 : ((store.drop s).take m).length = min m (store.drop s).length :=
    List.length_take m _
  rw [h1, List.take_add]
  congr 1
  exact (take_min_length _ m).symm

/-- Against any honest paginated server, with no `top` bound, the accumulator
of the loop is at all times exactly the first `skip` records of the store:
advancing the cursor by the number of records actually returned means no
record is ever skipped or duplicated. -/
lemma exportLoop_paged_take {α : Type} (store : List α) (nf : Nat → Nat) :
    ∀ (fuel : Nat) (st r : ExportLoopState α),
      exportLoop (pagedSrv store nf) none fuel st = ExportLoopResult.done r →
      st.all_docs = store.take st.skip →
      r.all_docs = store.take r.skip := by
  intro fuel
  induction fuel with
  | zero =>
    intro st r h _
    exact absurd h (by simp [exportLoop])
  | succ fuel ih =>
    intro st r h hacc
    rw [exportLoop_succ] at h
    simp only [pagedSrv] at h
    by_cases hemp : ((store.drop st.skip).take (nf st.skip)).isEmpty
    · rw [if_pos hemp] at h
      injection h with h'
      subst h'
      exact hacc
    · rw [if_neg hemp] at h
      rw [if_neg (by simp [topTruthy])] at h
      by_cases hshort : ((store.drop st.skip).take (nf st.skip)).length < page_size
      · rw [if_pos hshort] at h
        injection h with h'
        subst h'
        show st.all_docs ++ _ = store.take (st.skip + _)
        rw [hacc, take_extend]
      · rw [if_neg hshort] at h
        refine ih _ r h ?_
        show st.all_docs ++ _ = store.take (st.skip + _)
        rw [hacc, take_extend]

lemma pySlice_take {α : Type} (l : List α) (n : Nat) :
    pySlice l 0 ((n : Nat) : Int) = l.take n := by
  have h := pySlice_natCast l 0 n
  simpa using h

/-- Since `top = 0` is falsy in Python, the loop behaves exactly as with
`top = None`. -/
lemma exportLoop_top_zero {α : Type} (srv : Nat → PageResp α) :
    ∀ (fuel : Nat) (st : ExportLoopState α),
      exportLoop srv (some 0) fuel st = exportLoop srv none fuel st := by
  intro fuel
  induction fuel with
  | zero => intro st; rfl
  | succ fuel ih =>
    intro st
    rw [exportLoop_succ, exportLoop_succ]
    cases hsrv : srv st.skip with
    | err => simp only [hsrv]
    | ok page =>
      simp only [hsrv]
      by_cases hemp : page.isEmpty
      · rw [if_pos hemp, if_pos hemp]
      · rw [if_neg hemp, if_neg hemp,
          if_neg (fun hc => by simp [topTruthy] at hc : ¬(topTruthy (some 0)
            ∧ ((some (0 : Int)).getD 0 ≤ ((st.all_docs ++ page).length : Int)))),
          if_neg (fun hc => by simp [topTruthy] at hc : ¬(topTruthy none
            ∧ ((none : Option Int).getD 0 ≤ ((st.all_docs ++ page).length : Int))))]
        by_cases hshort : page.length < page_size
        · rw [if_pos hshort, if_pos hshort]
        · rw [if_neg hshort, if_neg hshort, ih]

/-- Against the canonical full-page server with at least `N` records in the
store and a truthy bound `top = N`, the loop (given enough fuel) always ends
normally with exactly the first `N` records of the store: the final page is
truncated by `all_docs[:top]`. -/
lemma exportLoop_full_top {α : Type} (store : List α) (N : Nat)
    (hN : 0 < N) (havail : N ≤ store.length) :
    ∀ (fuel : Nat) (st : ExportLoopState α),
      st.all_docs = store.take st.skip → st.skip ≤ store.length →
      st.skip < N → N ≤ st.skip + fuel * page_size →
      ∃ r, exportLoop (fullSrv store) (some (N : Int)) fuel st
            = ExportLoopResult.done r
        ∧ r.all_docs = store.take N := by
  intro fuel
  induction fuel with
  | zero =>
    intro st _ _ hlt hfuel
    rw [Nat.zero_mul] at hfuel
    omega
  | succ fuel ih =>
    intro st hacc hle hlt hfuel
    rw [exportLoop_succ]
    have hs : fullSrv store st.skip
        = PageResp.ok ((store.drop st.skip).take page_size) := rfl
    simp only [hs]
    have hplen : ((store.drop st.skip).take page_size).length
        = min page_size (store.length - st.skip) := by
      rw [List.length_take, List.length_drop]
    have hppos : 0 < ((store.drop st.skip).take page_size).length := by
      rw [hplen]
      simp only [page_size]
      omega
    rw [if_neg (by
      rw [List.isEmpty_iff]
      intro hc
      rw [hc] at hppos
      simp at hppos)]
    have hlen2 : (st.all_docs ++ (store.drop st.skip).take page_size).length
        = st.skip + ((store.drop st.skip).take page_size).length := by
      rw [List.length_append, hacc, List.length_take]
      omega
    by_cases hreach : N ≤ st.skip + ((store.drop st.skip).take page_size).length
    · rw [if_pos (by
        refine ⟨by simp only [topTruthy]; simp; omega, ?_⟩
        rw [Option.getD_some, hlen2]
        exact_mod_cast hreach)]
      refine ⟨_, rfl, ?_⟩
      show pySlice (st.all_docs ++ (store.drop st.skip).take page_size) 0
          ((some ((N : Nat) : Int)).getD 0) = store.take N
      rw [Option.getD_some, pySlice_take, hacc, take_extend, List.take_take,
        Nat.min_eq_left hreach]
    · rw [if_neg (by
        intro hc
        have h2 := hc.2
        rw [Option.getD_some, hlen2] at h2
        exact hreach (by exact_mod_cast h2))]
      have hfull : ¬ ((store.drop st.skip).take page_size).length < page_size := by
        intro hc
        rw [hplen] at hc hreach
        simp only [page_size] at hc hreach
        omega
      rw [if_neg hfull]
      refine ih _ ?_ ?_ ?_ ?_
      · show st.all_docs ++ (store.drop st.skip).take page_size = store.take _
        rw [hacc, take_extend]
      · show st.skip + ((store.drop st.skip).take page_size).length ≤ store.length
        rw [hplen]
        omega
      · show st.skip + ((store.drop st.skip).take page_size).length < N
        omega
      · show N ≤ st.skip + ((store.drop st.skip).take page_size).length
            + fuel * page_size
        rw [hplen] at hfull ⊢
        rw [Nat.succ_mul] at hfuel
        simp only [page_size] at hfull hfuel ⊢
        omega

/-- A transport stub for concrete runs: chunks of length 2 raise a transport
error, all other chunks succeed for every record. -/
def impWitUpload : List Nat → UploadResp :=
  fun b =>
    if b.length = 2 then UploadResp.err
    else UploadResp.ok (List.replicate b.length true)

/-! ## Claims about the import pipeline -/

/-- C1: For every import run over a non-empty input sequence and positive
batch size (the transport returning per-record outcome lists aligned to its
input, spec §6), the succeeded total plus the failed total equals the total
number of input records after all chunks are processed; and every chunk is
submitted to the transport — the loop never aborts on a chunk whose upload
call raises (an erring chunk contributes its entire size to the failed
total, which is what keeps the sum exact). -/
theorem import_accounts_every_record {α : Type} (documents : List α)
    (batch_size : Int) (upload : List α → UploadResp)
    (hne : documents ≠ []) (hpos : 0 < batch_size)
    (align : ∀ b r, upload b = UploadResp.ok r → r.length = b.length) :
    (import_json_to_search_index documents batch_size upload).uploaded_count
        + (import_json_to_search_index documents batch_size upload).failed_count
      = documents.length
    ∧ (import_json_to_search_index documents batch_size upload).uploads
      = importBatches documents batch_size := by
  rw [import_run documents batch_size upload hne (by omega)]
  constructor
  · show (importFinal documents batch_size upload).uploaded_count
        + (importFinal documents batch_size upload).failed_count = documents.length
    unfold importFinal
    rw [foldl_counts upload align]
    simpa using importBatches_length_sum documents batch_size hpos
  · show (importFinal documents batch_size upload).uploads = _
    unfold importFinal
    rw [foldl_uploads]
    rfl

/-- Witness for `import_accounts_every_record`: five records, batch size 2,
the first two chunks (of size 2) raise transport errors, the last succeeds;
1 succeeded + 4 failed = 5 and all three chunks were submitted. -/
theorem import_accounts_every_record_witness :
    (([1, 2, 3, 4, 5] : List Nat) ≠ [] ∧ (0 : Int) < 2)
    ∧ ((import_json_to_search_index ([1, 2, 3, 4, 5] : List Nat) 2
            impWitUpload).uploaded_count
        + (import_json_to_search_index ([1, 2, 3, 4, 5] : List Nat) 2
            impWitUpload).failed_count
        = 5
      ∧ (import_json_to_search_index ([1, 2, 3, 4, 5] : List Nat) 2
            impWitUpload).uploads
        = importBatches ([1, 2, 3, 4, 5] : List Nat) 2) :=
  ⟨⟨by decide, by decide⟩,
    import_accounts_every_record [1, 2, 3, 4, 5] 2 impWitUpload (by decide) (by decide)
      (fun b r h => by
        by_cases hl : b.length = 2
        · simp [impWitUpload, hl] at h
        · simp [impWitUpload, hl] at h
          rw [← h]
          simp)⟩

/-- C6: For input size `S` and batch size `B > 0` the importer submits
exactly `⌈S / B⌉` contiguous non-overlapping chunks, every chunk except
possibly the last has size exactly `B`, concatenating the chunks in order
reconstructs the input sequence exactly (so each record is submitted exactly
once). -/
theorem import_partition_correct {α : Type} (documents : List α)
    (batch_size : Int) (upload : List α → UploadResp) (hpos : 0 < batch_size) :
    (import_json_to_search_index documents batch_size upload).uploads.flatten
      = documents
    ∧ (import_json_to_search_index documents batch_size upload).uploads.length
      = (documents.length + batch_size.toNat - 1) / batch_size.toNat
    ∧ ∀ (k : Nat)
        (hk : k + 1
          < (import_json_to_search_index documents batch_size upload).uploads.length),
        ((import_json_to_search_index documents batch_size upload).uploads.get
            ⟨k, Nat.lt_of_succ_lt hk⟩).length
          = batch_size.toNat := by
  by_cases hne : documents = []
  · subst hne
    refine ⟨rfl, ?_, ?_⟩
    · show (0 : Nat) = ((List.length ([] : List α)) + batch_size.toNat - 1) / batch_size.toNat
      simp only [List.length_nil, Nat.zero_add]
      rw [Nat.div_eq_of_lt (by omega)]
    · intro k hk
      have h0 : (import_json_to_search_index ([] : List α) batch_size upload).uploads.length
          = 0 := rfl
      omega
  · have hu : (import_json_to_search_index documents batch_size upload).uploads
        = importBatches documents batch_size := by
      rw [import_run documents batch_size upload hne (by omega)]
      show (importFinal documents batch_size upload).uploads = _
      unfold importFinal
      rw [foldl_uploads]
      rfl
    rw [hu, importBatches_eq documents batch_size hpos]
    refine ⟨chunkList_flatten batch_size.toNat (by omega) _ documents rfl,
      chunkList_length _ _ _, ?_⟩
    intro k hk
    rw [chunkList_length] at hk
    exact chunkList_get_length documents batch_size.toNat _ k (by omega) rfl hk _

/-- Witness for `import_partition_correct`: five records, batch size 2 give
chunks `[1,2] [3,4] [5]` — three chunks, flattening back to the input. -/
theorem import_partition_correct_witness :
    ((0 : Int) < 2)
    ∧ ((import_json_to_search_index ([1, 2, 3, 4, 5] : List Nat) 2
          (fun _ => UploadResp.err)).uploads.flatten
        = [1, 2, 3, 4, 5]
      ∧ (import_json_to_search_index ([1, 2, 3, 4, 5] : List Nat) 2
          (fun _ => UploadResp.err)).uploads.length
        = 3
      ∧ ∀ (k : Nat)
          (hk : k + 1
            < (import_json_to_search_index ([1, 2, 3, 4, 5] : List Nat) 2
                (fun _ => UploadResp.err)).uploads.length),
          ((import_json_to_search_index ([1, 2, 3, 4, 5] : List Nat) 2
              (fun _ => UploadResp.err)).uploads.get
              ⟨k, Nat.lt_of_succ_lt hk⟩).length
            = 2) :=
  ⟨by decide,
    import_partition_correct [1, 2, 3, 4, 5] 2 (fun _ => UploadResp.err) (by decide)⟩

/-- C8: importing an empty input sequence is a no-op: the run reports
zero succeeded and zero failed, makes no transport call (`uploads = []`),
and returns 0 (`import.py` lines 56-58 return before the batch loop). -/
theorem import_empty_noop {α : Type} (batch_size : Int)
    (upload : List α → UploadResp) :
    import_json_to_search_index ([] : List α) batch_size upload
      = { ret := 0, uploaded_count := 0, failed_count := 0, progress := 0,
          uploads := [] } := rfl

/-- C10: on a non-empty input, a batch size `≤ 0` uploads nothing and
returns 0: `batch_size = 0` makes `range` raise, caught at the outermost
boundary (return 0, no transport call); a negative batch size yields an
empty `range`, so the loop body never runs. -/
theorem import_nonpositive_batch {α : Type} (documents : List α)
    (batch_size : Int) (upload : List α → UploadResp)
    (hne : documents ≠ []) (hnp : batch_size ≤ 0) :
    (import_json_to_search_index documents batch_size upload).ret = 0
    ∧ (import_json_to_search_index documents batch_size upload).uploads = [] := by
  by_cases h0 : batch_size = 0
  · subst h0
    unfold import_json_to_search_index
    rw [if_neg (by simp [List.isEmpty_iff, hne]), if_pos rfl]
    exact ⟨rfl, rfl⟩
  · have hb := importBatches_neg documents batch_size (by omega)
    rw [import_run documents batch_size upload hne h0]
    unfold importFinal
    rw [hb]
    exact ⟨rfl, rfl⟩

/-- Witness for `import_nonpositive_batch` at batch size `-3`. -/
theorem import_nonpositive_batch_witness :
    (([7] : List Nat) ≠ [] ∧ (-3 : Int) ≤ 0)
    ∧ ((import_json_to_search_index ([7] : List Nat) (-3)
          (fun _ => UploadResp.err)).ret = 0
      ∧ (import_json_to_search_index ([7] : List Nat) (-3)
          (fun _ => UploadResp.err)).uploads = []) :=
  ⟨⟨by decide, by decide⟩,
    import_nonpositive_batch [7] (-3) (fun _ => UploadResp.err) (by decide) (by decide)⟩

/-! ## Claims about the export pipeline -/

/-- C2: for every honest paginated server — whatever number of records it
chooses to return in each page — the skip cursor, advanced by the number of
records actually returned (`export.py` line 100) rather than by the requested
page size, keeps the accumulator equal to the first `skip` records of the
store and to the concatenation of the received pages: no record is ever
skipped or duplicated across pages. -/
theorem export_cursor_no_skip_no_dup {α : Type} (store : List α) (nf : Nat → Nat)
    (fuel : Nat) (r : ExportLoopState α)
    (hdone : exportLoop (pagedSrv store nf) none fuel (startState (α := α))
      = ExportLoopResult.done r) :
    r.all_docs = store.take r.skip ∧ r.all_docs = r.pages.flatten :=
  ⟨exportLoop_paged_take store nf fuel startState r hdone rfl,
    (exportLoop_none_pages (pagedSrv store nf) fuel startState r hdone rfl
      (fun q hq => absurd hq (by simp [startState]))).1⟩

/-- Witness for `export_cursor_no_skip_no_dup`: a server that returns two
records per page although 1000 were requested. -/
theorem export_cursor_no_skip_no_dup_witness :
    (exportLoop (pagedSrv [10, 20, 30] (fun _ => 2)) none 5
        (startState (α := Nat))
      = ExportLoopResult.done
          { all_docs := [10, 20], skip := 2, progress := 2,
            pages := [[10, 20]], requests := [(0, 1000)] })
    ∧ (({ all_docs := [10, 20], skip := 2, progress := 2,
          pages := [[10, 20]], requests := [(0, 1000)] }
            : ExportLoopState Nat).all_docs
        = List.take 2 [10, 20, 30]
      ∧ ({ all_docs := [10, 20], skip := 2, progress := 2,
           pages := [[10, 20]], requests := [(0, 1000)] }
            : ExportLoopState Nat).all_docs
        = [[10, 20]].flatten) :=
  ⟨by decide,
    export_cursor_no_skip_no_dup [10, 20, 30] (fun _ => 2) 5 _ (by decide)⟩

/-- C3: for every export with no `top` bound that reaches the write step,
the number of records written equals the sum of the sizes of all pages
fetched, and the page trace consists of full pages (size at least the
requested page size — pages at which no terminal condition held) followed by
one final short page of size strictly less than 1000 (possibly zero): the
loop terminated exactly at the first terminal page. -/
theorem export_no_top_page_sum {α : Type} (total : Int) (srv : Nat → PageResp α)
    (fuel : Nat) (out : ExportOut α) (docs : List α)
    (hrun : export_search_index_to_json (some total) srv none fuel = some out)
    (hw : out.written = some docs) :
    docs.length = (out.pages.map List.length).sum
    ∧ ∃ ps p, out.pages = ps ++ [p] ∧ p.length < page_size
        ∧ ∀ q ∈ ps, page_size ≤ q.length := by
  unfold export_search_index_to_json at hrun
  cases hloop : exportLoop srv none fuel (startState (α := α)) with
  | fuelOut =>
    rw [hloop] at hrun
    simp at hrun
  | exc st =>
    rw [hloop] at hrun
    simp only [Option.some.injEq] at hrun
    rw [← hrun] at hw
    simp at hw
  | done st =>
    rw [hloop] at hrun
    simp only [Option.some.injEq] at hrun
    subst hrun
    simp only [Option.some.injEq] at hw
    subst hw
    obtain ⟨hflat, ps, p, hpages, hshort, hfullpages⟩ :=
      exportLoop_none_pages srv fuel startState st hloop rfl
        (fun q hq => absurd hq (by simp [startState]))
    refine ⟨?_, ps, p, hpages, hshort, hfullpages⟩
    show st.all_docs.length = (st.pages.map List.length).sum
    rw [hflat, List.length_flatten]

/-- Witness for `export_no_top_page_sum`: a three-record store drained in a
single short page. -/
theorem export_no_top_page_sum_witness :
    (export_search_index_to_json (some 3) (fullSrv [4, 5, 6]) none 2
        = some ({ ret := 3, written := some [4, 5, 6], requests := [(0, 1000)],
                  pages := [[4, 5, 6]], progress := 3, ceiling := 3 }
                  : ExportOut Nat)
      ∧ ({ ret := 3, written := some [4, 5, 6], requests := [(0, 1000)],
           pages := [[4, 5, 6]], progress := 3, ceiling := 3 }
             : ExportOut Nat).written
        = some [4, 5, 6])
    ∧ ((List.length [4, 5, 6] : Nat)
        = (([[4, 5, 6]] : List (List Nat)).map List.length).sum
      ∧ ∃ ps p, ([[4, 5, 6]] : List (List Nat)) = ps ++ [p]
          ∧ p.length < page_size ∧ ∀ q ∈ ps, page_size ≤ q.length) :=
  ⟨⟨by decide, by decide⟩,
    export_no_top_page_sum 3 (fullSrv [4, 5, 6]) 2
      ({ ret := 3, written := some [4, 5, 6], requests := [(0, 1000)],
         pages := [[4, 5, 6]], progress := 3, ceiling := 3 } : ExportOut Nat)
      [4, 5, 6] (by decide) (by decide)⟩

/-- C4: with `top = N` and at least `N` records available, the export
writes exactly the first `N` records in server order and returns `N`; the
requested page size in every issued request is the fixed constant 1000,
independent of `top` — the bound is enforced by truncating the accumulated
sequence, not by shrinking page requests. -/
theorem export_top_truncation {α : Type} (store : List α) (total : Int)
    (N fuel : Nat) (hN : 0 < N) (havail : N ≤ store.length)
    (hfuel : N ≤ fuel * page_size) :
    ∃ out, export_search_index_to_json (some total) (fullSrv store)
          (some (N : Int)) fuel = some out
      ∧ out.written = some (store.take N)
      ∧ out.ret = N
      ∧ ∀ q ∈ out.requests, q.2 = page_size := by
  obtain ⟨r, hdone, hacc⟩ :=
    exportLoop_full_top store N hN havail fuel startState rfl (Nat.zero_le _) hN
      (by simpa [startState] using hfuel)
  have hinv : loopInvar r :=
    exportLoop_invar (fullSrv store) (some (N : Int)) fuel startState r
      (Or.inl hdone) ⟨fun q hq => absurd hq (by simp [startState]), rfl⟩
  refine ⟨{ ret := r.all_docs.length, written := some r.all_docs,
            requests := r.requests, pages := r.pages, progress := r.progress,
            ceiling := if topTruthy (some ((N : Nat) : Int)) then
              min total ((some ((N : Nat) : Int)).getD 0) else total },
          ?_, ?_, ?_, ?_⟩
  · unfold export_search_index_to_json
    rw [hdone]
  · show some r.all_docs = some (store.take N)
    rw [hacc]
  · show r.all_docs.length = N
    rw [hacc, List.length_take]
    omega
  · exact hinv.1

/-- Witness for `export_top_truncation`: eight records, `top = 5`. -/
theorem export_top_truncation_witness :
    ((0 : Nat) < 5 ∧ (5 : Nat) ≤ List.length [0, 1, 2, 3, 4, 5, 6, 7]
      ∧ (5 : Nat) ≤ 4 * page_size)
    ∧ ∃ out, export_search_index_to_json (some 8) (fullSrv [0, 1, 2, 3, 4, 5, 6, 7])
          (some ((5 : Nat) : Int)) 4 = some out
      ∧ out.written = some (List.take 5 [0, 1, 2, 3, 4, 5, 6, 7])
      ∧ out.ret = 5
      ∧ ∀ q ∈ out.requests, q.2 = page_size :=
  ⟨⟨by decide, by decide, by decide⟩,
    export_top_truncation [0, 1, 2, 3, 4, 5, 6, 7] 8 5 4 (by decide) (by decide)
      (by decide)⟩

/-- C5: whenever a transport call raises — whether the count probe or a
page request inside the loop — the export returns 0 and the write step is
never reached (`written = none`): no partial output is produced and the raw
fault is not propagated (the function still returns an `ExportOut`). -/
theorem export_error_returns_zero {α : Type} (probe : Option Int)
    (srv : Nat → PageResp α) (top : Option Int) (fuel : Nat) (out : ExportOut α)
    (hrun : export_search_index_to_json probe srv top fuel = some out)
    (herr : probe = none
      ∨ ∃ st, exportLoop srv top fuel (startState (α := α))
          = ExportLoopResult.exc st) :
    out.ret = 0 ∧ out.written = none := by
  rcases herr with hp | ⟨st, hexc⟩
  · subst hp
    unfold export_search_index_to_json at hrun
    simp only [Option.some.injEq] at hrun
    subst hrun
    exact ⟨rfl, rfl⟩
  · cases probe with
    | none =>
      unfold export_search_index_to_json at hrun
      simp only [Option.some.injEq] at hrun
      subst hrun
      exact ⟨rfl, rfl⟩
    | some c =>
      unfold export_search_index_to_json at hrun
      rw [hexc] at hrun
      simp only [Option.some.injEq] at hrun
      subst hrun
      exact ⟨rfl, rfl⟩

/-- Witness for `export_error_returns_zero`: a server that raises on the very
first page request. -/
theorem export_error_returns_zero_witness :
    (export_search_index_to_json (some 9) (fun _ => (PageResp.err : PageResp Nat))
        none 3
      = some ({ ret := 0, written := none, requests := [(0, 1000)], pages := [],
                progress := 0, ceiling := 9 } : ExportOut Nat)
      ∧ ∃ st, exportLoop (fun _ => (PageResp.err : PageResp Nat)) none 3
          (startState (α := Nat)) = ExportLoopResult.exc st)
    ∧ (({ ret := 0, written := none, requests := [(0, 1000)], pages := [],
          progress := 0, ceiling := 9 } : ExportOut Nat).ret = 0
      ∧ ({ ret := 0, written := none, requests := [(0, 1000)], pages := [],
           progress := 0, ceiling := 9 } : ExportOut Nat).written = none) :=
  ⟨⟨by decide,
    ⟨{ all_docs := [], skip := 0, progress := 0, pages := [],
       requests := [(0, 1000)] }, by decide⟩⟩,
    export_error_returns_zero (some 9) (fun _ => PageResp.err) none 3
      ({ ret := 0, written := none, requests := [(0, 1000)], pages := [],
         progress := 0, ceiling := 9 } : ExportOut Nat)
      (by decide)
      (Or.inr ⟨{ all_docs := [], skip := 0, progress := 0, pages := [],
                 requests := [(0, 1000)] }, by decide⟩)⟩

/-- C9: calling the export with `top = 0` behaves exactly as with no
`top`: both `if top:` sites in `export.py` (lines 56 and 109) treat `0` as
falsy, so the run neither stops at zero records nor caps the output. -/
theorem export_top_zero_unset {α : Type} (probe : Option Int)
    (srv : Nat → PageResp α) (fuel : Nat) :
    export_search_index_to_json probe srv (some 0) fuel
      = export_search_index_to_json probe srv none fuel := by
  cases probe with
  | none => rfl
  | some c =>
    unfold export_search_index_to_json
    rw [exportLoop_top_zero]
    simp [topTruthy]

/-- C7 is false as stated: (a) in the import pipeline the progress bar is
updated inside the `try` (`import.py` line 92), so a chunk whose transport
call raises is fully processed (counted failed, loop continues) yet advances
the counter by nothing — here one chunk of size 1 leaves the counter at 0;
(b) in the export pipeline with `top = 5` over 8 available records the
counter is advanced by the full page size (8) before the truncation check,
exceeding the known accurate ceiling `min(8, 5) = 5`. -/
theorem progress_claim_counterexample :
    ((import_json_to_search_index ([5] : List Nat) 1 (fun _ => UploadResp.err)).progress
        = 0
      ∧ (import_json_to_search_index ([5] : List Nat) 1
          (fun _ => UploadResp.err)).uploads = [[5]])
    ∧ ∃ out, export_search_index_to_json (some 8) (fullSrv [0, 1, 2, 3, 4, 5, 6, 7])
          (some 5) 4 = some out
        ∧ out.progress = 8 ∧ out.ceiling = 5 :=
  ⟨⟨by decide, by decide⟩,
    ⟨{ ret := 5, written := some [0, 1, 2, 3, 4], requests := [(0, 1000)],
       pages := [[0, 1, 2, 3, 4, 5, 6, 7]], progress := 8, ceiling := 5 },
      by decide, by decide, by decide⟩⟩

/-- C7 amended: the progress counter never decreases in either
pipeline; on import it is advanced by the chunk's size exactly for the chunks
whose transport call returns normally (an erring chunk does not advance it),
and therefore never exceeds the input size; on export it is advanced by the
page's record count after every page, so it equals the sum of all fetched
page sizes (which, when `top` is set, can exceed `min(count, top)` on the
final page before truncation). -/
theorem progress_amended {α : Type} (documents : List α) (batch_size : Int)
    (upload : List α → UploadResp) (srv : Nat → PageResp α) (top : Option Int)
    (fuel : Nat) (r : ExportLoopState α)
    (hne : documents ≠ []) (hpos : 0 < batch_size)
    (hloop : exportLoop srv top fuel (startState (α := α)) = ExportLoopResult.done r
      ∨ exportLoop srv top fuel (startState (α := α)) = ExportLoopResult.exc r) :
    (∀ (st : ImportState α) (b : List α),
        st.progress ≤ (processBatch upload st b).progress)
    ∧ (import_json_to_search_index documents batch_size upload).progress
      = (((importBatches documents batch_size).filter
            (fun b => uploadOk (upload b))).map List.length).sum
    ∧ (import_json_to_search_index documents batch_size upload).progress
      ≤ documents.length
    ∧ r.progress = (r.pages.map List.length).sum := by
  have hprog : (import_json_to_search_index documents batch_size upload).progress
      = (((importBatches documents batch_size).filter
            (fun b => uploadOk (upload b))).map List.length).sum := by
    rw [import_run documents batch_size upload hne (by omega)]
    show (importFinal documents batch_size upload).progress = _
    unfold importFinal
    rw [foldl_progress]
    simp
  refine ⟨?_, hprog, ?_, ?_⟩
  · intro st b
    cases h : upload b <;> simp [processBatch, h]
  · rw [hprog]
    calc (((importBatches documents batch_size).filter
            (fun b => uploadOk (upload b))).map List.length).sum
        ≤ ((importBatches documents batch_size).map List.length).sum :=
          filter_map_length_sum_le _ _
      _ = documents.length := importBatches_length_sum documents batch_size hpos
  · exact (exportLoop_invar srv top fuel startState r hloop
      ⟨fun q hq => absurd hq (by simp [startState]), rfl⟩).2

/-- Witness for `progress_amended`: one erring chunk on the import side, one
full-store page on the export side. -/
theorem progress_amended_witness :
    (([5] : List Nat) ≠ [] ∧ (0 : Int) < 1
      ∧ (exportLoop (fullSrv [1, 2]) none 3 (startState (α := Nat))
          = ExportLoopResult.done
              { all_docs := [1, 2], skip := 2, progress := 2,
                pages := [[1, 2]], requests := [(0, 1000)] }
        ∨ exportLoop (fullSrv [1, 2]) none 3 (startState (α := Nat))
          = ExportLoopResult.exc
              { all_docs := [1, 2], skip := 2, progress := 2,
                pages := [[1, 2]], requests := [(0, 1000)] }))
    ∧ ((∀ (st : ImportState Nat) (b : List Nat),
          st.progress ≤ (processBatch (fun _ => UploadResp.err) st b).progress)
      ∧ (import_json_to_search_index ([5] : List Nat) 1
            (fun _ => UploadResp.err)).progress
        = ((((importBatches ([5] : List Nat) 1).filter
              (fun b => uploadOk ((fun _ => UploadResp.err) b))).map List.length).sum)
      ∧ (import_json_to_search_index ([5] : List Nat) 1
            (fun _ => UploadResp.err)).progress
        ≤ List.length ([5] : List Nat)
      ∧ ({ all_docs := [1, 2], skip := 2, progress := 2,
           pages := [[1, 2]], requests := [(0, 1000)] }
             : ExportLoopState Nat).progress
        = (([[1, 2]] : List (List Nat)).map List.length).sum) :=
  ⟨⟨by decide, by decide, Or.inl (by decide)⟩,
    progress_amended [5] 1 (fun _ => UploadResp.err) (fullSrv [1, 2]) none 3 _
      (by decide) (by decide) (Or.inl (by decide))⟩

end AzSearch
